import Mathlib

/-!
Shallow embedding of `idiaptts/src/model_trainers/wcad/AtomModelTrainer.py`
(IdiapTTS).  The file embeds the atom-to-F0 reconstruction and
trimming/alignment logic of `AtomModelTrainer`: `get_recon_from_synth_output`,
`run_atom_synth`, the trim arithmetic of `gen_figure_from_output`, the
synthesis entry points and the constructor's weight initialisation.  Feature
values are rationals, feature matrices are lists of rows, and the Python
dictionaries keyed by utterance id are association lists.  Helper classes of
the repository that are not part of the analysed sources (`WorldFeatLabelGen`,
`AtomLabelGen`, `Synthesiser`, the `ModelTrainer` base class) are modelled
from the specification; each such definition carries a doc comment saying so.
-/

namespace IdiapTTS

/-- Clamped position that the integer `i` denotes as a Python slice endpoint in
a sequence of length `n`: negative values count from the end and the result is
clamped into `[0, n]`. -/
def pyIdx (n : ℕ) (i : ℤ) : ℕ :=
  if i < 0 then ((n : ℤ) + i).toNat
  else if i.toNat ≤ n then i.toNat else n

/-- Python slice `l[i:]`. -/
def pySliceFrom (l : List α) (i : ℤ) : List α := l.drop (pyIdx l.length i)

/-- Python slice `l[:i]`. -/
def pySliceTo (l : List α) (i : ℤ) : List α := l.take (pyIdx l.length i)

/-- Python `int(x / 2)` (also `int(x / 2.0)`): half of `x`, truncated toward
zero. -/
def truncDiv2 (x : ℤ) : ℤ := if 0 ≤ x then x / 2 else -((-x) / 2)

/-- Modelled from the spec: `trim_end_sample` of the label generators
(`WorldFeatLabelGen`, `AtomLabelGen`) is not under `src/`.  Per the spec's
trimming/alignment description it removes `len` frames from the end of the
sample (`sample[:-len]`), or from its beginning when `reverse` is true
(`sample[len:]`), and returns the sample unchanged when `len = 0`. -/
def trim_end_sample (sample : List α) (len : ℤ) (reverse : Bool) : List α :=
  if len = 0 then sample
  else if reverse then pySliceFrom sample len
  else pySliceTo sample (-len)

/-- The trim arithmetic of `gen_figure_from_output` (lines 138-140): with
`len_diff = len(original_lf0) - len(lf0)`, the original lf0 is trimmed by
`int(len_diff / 2.0)` frames at the end and then by `int(len_diff / 2.0) + 1`
frames at the beginning. -/
def gen_figure_trim (original_lf0 : List ℚ) (lf0_len : ℕ) : List ℚ :=
  trim_end_sample
    (trim_end_sample original_lf0
      (truncDiv2 ((original_lf0.length : ℤ) - (lf0_len : ℤ))) false)
    (truncDiv2 ((original_lf0.length : ℤ) - (lf0_len : ℤ)) + 1) true

/-- Modelled from the spec: the two numeric constants of `WorldFeatLabelGen`
used by `AtomModelTrainer` (the class itself is not under `src/`): the natural
logarithm of `f0_silence_threshold` and the `lf0_zero` placeholder value
written into silent frames.  Their concrete values are not given, so they are
carried as abstract rational parameters. -/
structure WorldConsts where
  log_f0_silence_threshold : ℚ
  lf0_zero : ℚ
deriving DecidableEq

/-- The hyper-parameter container, restricted to the attributes that the
embedded methods of `AtomModelTrainer` read or write.  A value of
`weight_zero`/`weight_non_zero` is `none` when the attribute is absent
(`hasattr` is false) and `some none` when the attribute holds Python `None`. -/
structure HParams where
  synth_acoustic_model_path : Option String
  num_coded_sps : ℕ
  k : ℚ
  frame_size_ms : ℚ
  min_atom_amp : ℚ
  thetas : List ℚ
  synth_file_suffix : String
  weight_zero : Option (Option ℚ)
  weight_non_zero : Option (Option ℚ)
deriving DecidableEq

/-- Modelled from the spec: a gamma atom of the WCAD decomposition — a peak
parameterised by its frame position, amplitude and theta (plus the global
`k`).  `AtomLabelGen` is not under `src/`. -/
structure GammaAtom where
  pos : ℕ
  amp : ℚ
  theta : ℚ
  k : ℚ
deriving DecidableEq

/-- An atom label as it appears in `synth_output`: either a 2-dimensional
`T x 2` array or a 3-dimensional `T x |thetas| x 2` array whose innermost
pairs are (amplitude, theta). -/
inductive ALabel
  | dim2 (rows : List (ℚ × ℚ))
  | dim3 (rows : List (List (ℚ × ℚ)))
deriving DecidableEq

/-- `np.expand_dims(label, axis=1)` applied when `len(label.shape) == 2`
(line 204-205): a 2-dimensional label becomes a `T x 1 x 2` label; a
3-dimensional label is left as is. -/
def ALabel.expand : ALabel → List (List (ℚ × ℚ))
  | .dim2 rows => rows.map (fun r => [r])
  | .dim3 rows => rows

/-- `len(label)`: the number of frames (the size of axis 0). -/
def ALabel.len : ALabel → ℕ
  | .dim2 rows => rows.length
  | .dim3 rows => rows.length

/-- Absolute value of a rational, written out so that it evaluates. -/
def ratAbs (q : ℚ) : ℚ := if q < 0 then -q else q

/-- Modelled from the spec: `AtomLabelGen.labels_to_atoms` is not under
`src/`.  Per the spec the labels are a sparse peak-parameterized
representation: every (amplitude, theta) entry whose amplitude reaches the
threshold in absolute value yields an atom peaking at its frame. -/
def labels_to_atoms (label : List (List (ℚ × ℚ))) (k : ℚ) (frame_size : ℚ)
    (amp_threshold : ℚ) : List GammaAtom :=
  (label.enum.map (fun tr =>
    tr.2.filterMap (fun ampTheta =>
      if amp_threshold ≤ ratAbs ampTheta.1 then
        some ⟨tr.1, ampTheta.1, ampTheta.2, k⟩
      else none))).flatten

/-- Modelled from the spec: `AtomLabelGen.atoms_to_lf0` is not under `src/`.
Per the spec it converts the sparse atoms into a dense log-F0 signal with
`num_frames` frames; the gamma kernel shape is not specified, so each atom
contributes its amplitude at its peak frame. -/
def atoms_to_lf0 (atoms : List GammaAtom) (num_frames : ℕ) : List ℚ :=
  (List.range num_frames).map (fun i =>
    (atoms.filter (fun a => a.pos = i)).foldl (fun acc a => acc + a.amp) 0)

/-- Line 214: a frame whose value is at most `log(f0_silence_threshold)` is
replaced by `lf0_zero`. -/
def silence_to_zero (wc : WorldConsts) (v : ℚ) : ℚ :=
  if v ≤ wc.log_f0_silence_threshold then wc.lf0_zero else v

/-- Lines 204-208 of `get_recon_from_synth_output`: the raw reconstruction of
one label — expand a 2-dimensional label, turn the label into atoms and the
atoms into a dense lf0 of `len(label)` frames. -/
def recon_raw (hp : HParams) (label : ALabel) : List ℚ :=
  atoms_to_lf0
    (labels_to_atoms label.expand hp.k hp.frame_size_ms hp.min_atom_amp)
    label.expand.length

/-- Lines 211-212: the phrase curve read from `dir_labels/id_name.phrase`
(modelled by the function `phraseFile` from id to file contents), truncated to
the reconstruction length. -/
def phrase_trunc (phraseFile : String → List ℚ) (hp : HParams)
    (id_name : String) (label : ALabel) : List ℚ :=
  (phraseFile id_name).take (recon_raw hp label).length

/-- Lines 204-214, the loop body of `get_recon_from_synth_output`: add the
truncated phrase curve to the first `len(phrase_curve)` frames of the raw
reconstruction, then map silent frames to `lf0_zero`. -/
def recon_one (phraseFile : String → List ℚ) (wc : WorldConsts) (hp : HParams)
    (id_name : String) (label : ALabel) : List ℚ :=
  (List.zipWith (fun a b => a + b) (recon_raw hp label)
      (phrase_trunc phraseFile hp id_name label)
    ++ (recon_raw hp label).drop
        (phrase_trunc phraseFile hp id_name label).length).map
    (silence_to_zero wc)

/-- `get_recon_from_synth_output` (lines 198-218): reconstruct the dense LF0
for every entry of `synth_output` (a dict modelled as an association list). -/
def get_recon_from_synth_output (phraseFile : String → List ℚ)
    (wc : WorldConsts) (hp : HParams) (synth_output : List (String × ALabel)) :
    List (String × List ℚ) :=
  synth_output.map (fun e => (e.1, recon_one phraseFile wc hp e.1 e.2))

/-- `load_extracted_audio_features` (lines 261-271): for every key of
`synth_output`, load the WORLD features extracted from the original audio.
The feature files on disk are modelled by the function `worldFile` from id to
matrix contents. -/
def load_extracted_audio_features (worldFile : String → List (List ℚ))
    (synth_output : List (String × α)) : List (String × List (List ℚ)) :=
  synth_output.map (fun e => (e.1, worldFile e.1))

/-- Python dict read `d[key]` on an association list (`none` is a KeyError). -/
def dictGet (key : String) : List (String × β) → Option β
  | [] => none
  | e :: rest => if e.1 = key then some e.2 else dictGet key rest

/-- In-place mutation of the array stored under `key`. -/
def dictSet (key : String) (v : β) (l : List (String × β)) :
    List (String × β) :=
  l.map (fun e => if e.1 = key then (e.1, v) else e)

/-- First row of the numpy view produced by line 389,
`trim_end_sample(full_sample, int(len_diff / 2), reverse=True)`, on a matrix
of `n` rows against an lf0 of `L` frames. -/
def stitch_start (n L : ℕ) : ℕ :=
  if truncDiv2 ((n : ℤ) - (L : ℤ)) = 0 then 0
  else pyIdx n (truncDiv2 ((n : ℤ) - (L : ℤ)))

/-- Row just past the numpy view after line 390,
`trim_end_sample(full_sample, len_diff - int(len_diff / 2))`, applied to the
view of line 389. -/
def stitch_stop (n L : ℕ) : ℕ :=
  if ((n : ℤ) - (L : ℤ)) - truncDiv2 ((n : ℤ) - (L : ℤ)) = 0 then n
  else stitch_start n L +
    pyIdx (n - stitch_start n L)
      (-(((n : ℤ) - (L : ℤ)) - truncDiv2 ((n : ℤ) - (L : ℤ))))

/-- The derived voiced/unvoiced mask entry of lines 391-392: `np.ones` with
zeros where the reconstructed lf0 is at most `log(f0_silence_threshold)`. -/
def vuv_val (wc : WorldConsts) (v : ℚ) : ℚ :=
  if v ≤ wc.log_f0_silence_threshold then 0 else 1

/-- Lines 393-394 on one row of the view: write the reconstructed lf0 value
into column `num_coded_sps` and the derived vuv value into column
`num_coded_sps + 1`. -/
def stitch_row (wc : WorldConsts) (sps : ℕ) (v : ℚ) (row : List ℚ) :
    List ℚ :=
  (row.set sps v).set (sps + 1) (vuv_val wc v)

/-- Lines 388-394 of `run_atom_synth` for one id.  `trim_end_sample` performs
numpy basic slicing, so the two trims yield a view of rows
`[stitch_start, stitch_stop)` of the stored matrix and the column writes of
lines 393-394 go through that view into those rows; the dict entry itself is
never rebound, so the full (untrimmed) matrix is what remains stored.  The
writes raise (ValueError) when the view's row count differs from `len(lf0)`
(numpy broadcast) and (IndexError) when the written columns do not exist;
both are modelled as `Except.error`. -/
def stitch_one (wc : WorldConsts) (sps : ℕ) (full_sample : List (List ℚ))
    (lf0 : List ℚ) : Except String (List (List ℚ)) :=
  if stitch_stop full_sample.length lf0.length -
        stitch_start full_sample.length lf0.length = lf0.length
      ∧ full_sample.all (fun row => sps + 1 < row.length) then
    Except.ok (full_sample.enum.map (fun ir =>
      if stitch_start full_sample.length lf0.length ≤ ir.1
          ∧ ir.1 < stitch_stop full_sample.length lf0.length then
        stitch_row wc sps
          (lf0.getD (ir.1 - stitch_start full_sample.length lf0.length) 0)
          ir.2
      else ir.2))
  else Except.error "ValueError"

/-- The reconstruction loop of `run_atom_synth` (lines 386-394) over all
entries of `recon_dict`. -/
def stitch_all (wc : WorldConsts) (sps : ℕ) :
    List (String × List (List ℚ)) → List (String × List ℚ) →
    Except String (List (String × List (List ℚ)))
  | full_output, [] => Except.ok full_output
  | full_output, (id_name, lf0) :: rest =>
    match dictGet id_name full_output with
    | none => Except.error "KeyError"
    | some full_sample =>
      match stitch_one wc sps full_sample lf0 with
      | Except.error msg => Except.error msg
      | Except.ok new_sample =>
        stitch_all wc sps (dictSet id_name new_sample full_output) rest

/-- `generate_audio_features` (lines 273-315): it drives the base trainer's
synth machinery (out of scope, saves mgc/vuv/bap files to disk) and has no
`return` statement, so its Python return value is always `None`. -/
def generate_audio_features (file_id_list : List String) (hp : HParams) :
    Option (List (String × List (List ℚ))) := none

/-- `run_atom_synth` (lines 372-396): obtain the full feature matrices either
from the extracted audio features (when `hparams.synth_acoustic_model_path`
is `None`) or from `generate_audio_features`, then run the reconstruction
loop.  Since `generate_audio_features` returns `None`, the loop body's
`full_output[id_name]` raises a TypeError on its first iteration in the
second branch; with an empty `recon_dict` the loop body never runs and the
`None` is returned as is (`Except.ok none`). -/
def run_atom_synth (worldFile : String → List (List ℚ))
    (phraseFile : String → List ℚ) (wc : WorldConsts) (hp : HParams)
    (file_id_list : List String) (synth_output : List (String × ALabel)) :
    Except String (Option (List (String × List (List ℚ)))) :=
  match hp.synth_acoustic_model_path with
  | none =>
    (stitch_all wc hp.num_coded_sps
      (load_extracted_audio_features worldFile synth_output)
      (get_recon_from_synth_output phraseFile wc hp synth_output)).map some
  | some _ =>
    match generate_audio_features file_id_list hp with
    | some full_output =>
      (stitch_all wc hp.num_coded_sps full_output
        (get_recon_from_synth_output phraseFile wc hp synth_output)).map some
    | none =>
      if (get_recon_from_synth_output phraseFile wc hp synth_output).isEmpty
      then Except.ok none
      else Except.error "TypeError"

/-- Record of one call to the WORLD vocoder. -/
structure WorldSynthCall where
  features : Option (List (String × List (List ℚ)))
  suffix : String
deriving DecidableEq

/-- Modelled from the spec: `Synthesiser.run_world_synth` is not under
`src/`; it synthesizes audio from the given acoustic features with the WORLD
vocoder.  It is modelled as the record of the call: the features it received
and the file suffix active at the time. -/
def Synthesiser.run_world_synth
    (features : Option (List (String × List (List ℚ)))) (hp : HParams) :
    WorldSynthCall :=
  ⟨features, hp.synth_file_suffix⟩

/-- `synthesize` (lines 317-323): build the full acoustic output with
`run_atom_synth` and hand exactly that result to
`Synthesiser.run_world_synth`. -/
def synthesize (worldFile : String → List (List ℚ))
    (phraseFile : String → List ℚ) (wc : WorldConsts) (hp : HParams)
    (id_list : List String) (synth_output : List (String × ALabel)) :
    Except String WorldSynthCall :=
  (run_atom_synth worldFile phraseFile wc hp id_list synth_output).map
    (fun full_output => Synthesiser.run_world_synth full_output hp)

/-- Record of one call to the base trainer's vocoder entry point. -/
structure VocoderSynthCall where
  features : List (String × List (List ℚ))
  suffix : String
deriving DecidableEq

/-- Modelled from the spec: the base class method `ModelTrainer.synthesize`
(called by `synth_phrase` on line 367) is not under `src/`; it runs the
vocoder on the given features.  Modelled as the record of the call. -/
def ModelTrainer.synthesize (file_id_list : List String)
    (features : List (String × List (List ℚ))) (hp : HParams) :
    VocoderSynthCall :=
  ⟨features, hp.synth_file_suffix⟩

/-- `synth_ref_wcad` (lines 325-342): load the extracted atoms (the `.atom`
files on disk are modelled by `atomFile`), run `run_atom_synth`, append
`"_wcad_ref"` to `hparams.synth_file_suffix`, run the WORLD synthesizer and
restore the suffix.  The returned pair is the final hparams state and the
vocoder call. -/
def synth_ref_wcad (worldFile : String → List (List ℚ))
    (phraseFile : String → List ℚ) (atomFile : String → List (List (ℚ × ℚ)))
    (wc : WorldConsts) (hp : HParams) (file_id_list : List String) :
    Except String (HParams × WorldSynthCall) :=
  match run_atom_synth worldFile phraseFile wc hp file_id_list
      (file_id_list.map (fun id_name => (id_name, ALabel.dim3 (atomFile id_name)))) with
  | Except.error msg => Except.error msg
  | Except.ok full_output =>
    Except.ok
      ({ hp with synth_file_suffix :=
          (hp.synth_file_suffix ++ "_wcad_ref") } |>
          (fun hp2 =>
            ({ hp2 with synth_file_suffix := hp.synth_file_suffix },
              Synthesiser.run_world_synth full_output hp2)))

/-- Lines 356-360 for one id: `labels[:, -3] = phrase_curve[:len(labels)]`.
Raises when the truncated phrase curve is shorter than the matrix (numpy
broadcast) or when a row has fewer than 3 columns (negative index). -/
def override_one (phraseFile : String → List ℚ) (id_name : String)
    (labels : List (List ℚ)) : Except String (List (List ℚ)) :=
  if ((phraseFile id_name).take labels.length).length = labels.length
      ∧ labels.all (fun row => 3 ≤ row.length) then
    Except.ok (labels.enum.map (fun ir =>
      ir.2.set (ir.2.length - 3)
        (((phraseFile id_name).take labels.length).getD ir.1 0)))
  else Except.error "ValueError"

/-- The override loop of `synth_phrase` (lines 356-360) over all entries. -/
def override_all (phraseFile : String → List ℚ) :
    List (String × List (List ℚ)) →
    Except String (List (String × List (List ℚ)))
  | [] => Except.ok []
  | e :: rest =>
    match override_one phraseFile e.1 e.2 with
    | Except.error msg => Except.error msg
    | Except.ok m =>
      match override_all phraseFile rest with
      | Except.error msg => Except.error msg
      | Except.ok rest2 => Except.ok ((e.1, m) :: rest2)

/-- `synth_phrase` (lines 344-370): load the extracted audio features for the
ids, override the lf0 column (index -3) with the phrase curve, append
`"_phrase"` to `hparams.synth_file_suffix`, run the base trainer's
`synthesize` and restore the suffix. -/
def synth_phrase (worldFile : String → List (List ℚ))
    (phraseFile : String → List ℚ) (hp : HParams)
    (file_id_list : List String) :
    Except String (HParams × VocoderSynthCall) :=
  match override_all phraseFile
      (load_extracted_audio_features worldFile
        (file_id_list.map (fun id_name => (id_name, (none : Option Unit))))) with
  | Except.error msg => Except.error msg
  | Except.ok full_output =>
    Except.ok
      ({ hp with synth_file_suffix := (hp.synth_file_suffix ++ "_phrase") } |>
        (fun hp2 =>
          ({ hp2 with synth_file_suffix := hp.synth_file_suffix },
            ModelTrainer.synthesize file_id_list full_output hp2)))

/-- Lines 72-80 of the constructor: with
`non_zero_occurrence = min(0.99, 0.02 / len(thetas))` and
`zero_occurrence = 1 - non_zero_occurrence`, add or overwrite the weights
when the attribute `weight_zero` is absent or `None`, and leave both
untouched otherwise. -/
def init_weight_hparams (thetas : List ℚ) (hp : HParams) : HParams :=
  match hp.weight_zero with
  | none =>
    { hp with
      weight_non_zero :=
        some (some (1 / min (99 / 100 : ℚ) ((1 / 50) / (thetas.length : ℚ)))),
      weight_zero :=
        some (some (1 /
          (1 - min (99 / 100 : ℚ) ((1 / 50) / (thetas.length : ℚ))))) }
  | some none =>
    { hp with
      weight_non_zero :=
        some (some (1 / min (99 / 100 : ℚ) ((1 / 50) / (thetas.length : ℚ)))),
      weight_zero :=
        some (some (1 /
          (1 - min (99 / 100 : ℚ) ((1 / 50) / (thetas.length : ℚ))))) }
  | some (some _) => hp

/-- Column `j` of a feature matrix. -/
def matCol (m : List (List ℚ)) (j : ℕ) : List ℚ :=
  m.map (fun row => row.getD j 0)

instance [DecidableEq ε] [DecidableEq α] : DecidableEq (Except ε α) :=
  fun a b =>
    match a, b with
    | .error e1, .error e2 =>
      if h : e1 = e2 then isTrue (h ▸ rfl)
      else isFalse (fun hc => h (Except.error.inj hc))
    | .ok x, .ok y =>
      if h : x = y then isTrue (h ▸ rfl)
      else isFalse (fun hc => h (Except.ok.inj hc))
    | .error _, .ok _ => isFalse (fun hc => Except.noConfusion hc)
    | .ok _, .error _ => isFalse (fun hc => Except.noConfusion hc)

/-- Test fixture: extracted WORLD features, 3 frames of width 4. -/
def sampleWorld : String → List (List ℚ) :=
  fun _ => [[10, 10, 10, 10], [20, 20, 20, 20], [30, 30, 30, 30]]

/-- Test fixture: an empty phrase-curve file. -/
def samplePhrase : String → List ℚ := fun _ => []

/-- Test fixture: world constants (log silence threshold 0, `lf0_zero`
placeholder -1). -/
def sampleWC : WorldConsts := ⟨0, -1⟩

/-- Test fixture: hparams with no acoustic model path, one coded sp and one
theta. -/
def sampleHP : HParams := ⟨none, 1, 6, 5, 1, [1], "s", none, none⟩

/-- Test fixture: hparams with an acoustic model path set. -/
def sampleHPAM : HParams := ⟨some "am", 1, 6, 5, 1, [1], "s", none, none⟩

/-- Test fixture: a one-frame, one-theta atom label whose amplitude 0 stays
below the atom threshold, so the raw reconstruction is one silent frame. -/
def sampleLabel : ALabel := ALabel.dim3 [[(0, 7)]]

/-- Test fixture: a one-utterance `synth_output`. -/
def sampleSynthOutput : List (String × ALabel) := [("a", sampleLabel)]

/-- Test fixture: `sampleWorld "a"` after `run_atom_synth` stitched the
1-frame reconstruction `[-1]` (a silent frame mapped to `lf0_zero`) into rows
`[1, 2)` of columns 1 (lf0) and 2 (vuv 0). -/
def sampleStitched : List (List ℚ) :=
  [[10, 10, 10, 10], [20, -1, 0, 20], [30, 30, 30, 30]]

/-- Test fixture: a world-feature store with empty matrices. -/
def emptyWorld : String → List (List ℚ) := fun _ => []

/-- Test fixture: an atom-file store with empty labels. -/
def emptyAtomFile : String → List (List (ℚ × ℚ)) := fun _ => []

/-- Test fixture: extracted WORLD features with only 2 columns per frame (too
narrow for the `labels[:, -3]` override of `synth_phrase`). -/
def sampleWorld2 : String → List (List ℚ) := fun _ => [[10, 10], [20, 20]]

/-- Test fixture: hparams with `num_coded_sps = 0` and no acoustic model
path. -/
def sampleHP0 : HParams := ⟨none, 0, 6, 5, 1, [1], "s", none, none⟩

end IdiapTTS

namespace IdiapTTS

theorem pyIdx_le (n : ℕ) (i : ℤ) : pyIdx n i ≤ n := by
  unfold pyIdx
  split_ifs <;> omega

theorem pyIdx_of_nonneg (n : ℕ) (i : ℤ) (h0 : 0 ≤ i) (h : i ≤ (n : ℤ)) :
    pyIdx n i = i.toNat := by
  unfold pyIdx
  split_ifs <;> omega

theorem pyIdx_of_neg (n : ℕ) (i : ℤ) (h : i < 0) :
    pyIdx n i = ((n : ℤ) + i).toNat := by
  unfold pyIdx
  rw [if_pos h]

theorem truncDiv2_of_nonneg (x : ℤ) (h : 0 ≤ x) : truncDiv2 x = x / 2 := by
  unfold truncDiv2
  rw [if_pos h]

theorem length_trim_end_sample_rev (l : List α) (len : ℤ) :
    (trim_end_sample l len true).length =
      if len = 0 then l.length else l.length - pyIdx l.length len := by
  unfold trim_end_sample pySliceFrom
  by_cases h : len = 0
  · rw [if_pos h, if_pos h]
  · rw [if_neg h, if_neg h, if_pos rfl]
    exact List.length_drop _ _

theorem length_trim_end_sample_fwd (l : List α) (len : ℤ) :
    (trim_end_sample l len false).length =
      if len = 0 then l.length else pyIdx l.length (-len) := by
  unfold trim_end_sample pySliceTo
  by_cases h : len = 0
  · rw [if_pos h, if_pos h]
  · rw [if_neg h, if_neg h, if_neg Bool.false_ne_true, List.length_take]
    exact Nat.min_eq_left (pyIdx_le _ _)

/-- C4: in `run_atom_synth`, for every full sample and reconstructed lf0 with
`len_diff = len(full_sample) - len(lf0) ≥ 0`, trimming `int(len_diff / 2)`
frames from the beginning (`trim_end_sample` with `reverse = True`) and then
`len_diff - int(len_diff / 2)` frames from the end removes exactly `len_diff`
frames, so the trimmed full sample has exactly as many frames as the
reconstructed lf0. -/
theorem run_atom_synth_trim_exact (full_sample : List (List ℚ)) (lf0 : List ℚ)
    (h : (0 : ℤ) ≤ (full_sample.length : ℤ) - (lf0.length : ℤ)) :
    (trim_end_sample
        (trim_end_sample full_sample
          (truncDiv2 ((full_sample.length : ℤ) - (lf0.length : ℤ))) true)
        (((full_sample.length : ℤ) - (lf0.length : ℤ)) -
          truncDiv2 ((full_sample.length : ℤ) - (lf0.length : ℤ))) false).length
      = lf0.length := by
  rw [length_trim_end_sample_fwd, length_trim_end_sample_rev,
    truncDiv2_of_nonneg _ h]
  have ha0 : 0 ≤ ((full_sample.length : ℤ) - (lf0.length : ℤ)) / 2 :=
    Int.ediv_nonneg h (by norm_num)
  have ha1 : ((full_sample.length : ℤ) - (lf0.length : ℤ)) / 2 ≤
      (full_sample.length : ℤ) - (lf0.length : ℤ) := Int.ediv_le_self 2 h
  have hpy1 : pyIdx full_sample.length
      (((full_sample.length : ℤ) - (lf0.length : ℤ)) / 2) =
      (((full_sample.length : ℤ) - (lf0.length : ℤ)) / 2).toNat :=
    pyIdx_of_nonneg _ _ ha0 (by omega)
  rw [hpy1]
  by_cases hb : (full_sample.length : ℤ) - (lf0.length : ℤ) -
      ((full_sample.length : ℤ) - (lf0.length : ℤ)) / 2 = 0
  · rw [if_pos hb]
    split_ifs <;> omega
  · rw [if_neg hb]
    split_ifs with h0
    · rw [pyIdx_of_neg _ _ (by omega)]
      omega
    · rw [pyIdx_of_neg _ _ (by omega)]
      omega

theorem run_atom_synth_trim_exact_witness :
    (0 : ℤ) ≤ (([[(0 : ℚ)], [0], [0]] : List (List ℚ)).length : ℤ) -
        (([(0 : ℚ)] : List ℚ).length : ℤ) ∧
      (trim_end_sample
          (trim_end_sample ([[(0 : ℚ)], [0], [0]] : List (List ℚ))
            (truncDiv2 ((([[(0 : ℚ)], [0], [0]] : List (List ℚ)).length : ℤ) -
              (([(0 : ℚ)] : List ℚ).length : ℤ))) true)
          (((([[(0 : ℚ)], [0], [0]] : List (List ℚ)).length : ℤ) -
              (([(0 : ℚ)] : List ℚ).length : ℤ)) -
            truncDiv2 ((([[(0 : ℚ)], [0], [0]] : List (List ℚ)).length : ℤ) -
              (([(0 : ℚ)] : List ℚ).length : ℤ))) false).length
        = ([(0 : ℚ)] : List ℚ).length :=
  ⟨by decide, run_atom_synth_trim_exact [[(0 : ℚ)], [0], [0]] [(0 : ℚ)] (by decide)⟩

/-- C5 counterexample: with `len_diff = 0` (original lf0 of length 4 against a
predicted lf0 of length 4) the trimming of `gen_figure_from_output` removes
`int(0 / 2.0) = 0` frames at the end but `int(0 / 2.0) + 1 = 1` frame at the
beginning, so the trimmed original lf0 has 3 frames, not 4. -/
theorem gen_figure_trim_not_aligned :
    ¬ (gen_figure_trim [(0 : ℚ), 0, 0, 0] 4).length = 4 := by decide

/-- C5 (amended): the trimming of `gen_figure_from_output` removes
`2 * int(len_diff / 2.0) + 1` frames in total, so the trimmed original lf0 has
the same length as the predicted lf0 exactly for odd positive `len_diff`; this
theorem proves the odd positive case. -/
theorem gen_figure_trim_length_odd (original_lf0 : List ℚ) (lf0_len : ℕ)
    (hodd : ((original_lf0.length : ℤ) - (lf0_len : ℤ)) % 2 = 1)
    (hpos : 0 < (original_lf0.length : ℤ) - (lf0_len : ℤ)) :
    (gen_figure_trim original_lf0 lf0_len).length = lf0_len := by
  unfold gen_figure_trim
  rw [length_trim_end_sample_rev, length_trim_end_sample_fwd,
    truncDiv2_of_nonneg _ (by omega)]
  have hkey : 2 * (((original_lf0.length : ℤ) - (lf0_len : ℤ)) / 2) + 1 =
      (original_lf0.length : ℤ) - (lf0_len : ℤ) := by
    have := Int.ediv_add_emod ((original_lf0.length : ℤ) - (lf0_len : ℤ)) 2
    omega
  have ha0 : 0 ≤ ((original_lf0.length : ℤ) - (lf0_len : ℤ)) / 2 := by omega
  have hne : ¬ ((original_lf0.length : ℤ) - (lf0_len : ℤ)) / 2 + 1 = 0 := by
    omega
  rw [if_neg hne]
  split_ifs with h0
  · rw [pyIdx_of_nonneg _ _ (by omega) (by omega)]
    omega
  · rw [pyIdx_of_neg _ _ (by omega)]
    rw [pyIdx_of_nonneg _ _ (by omega) (by omega)]
    omega

theorem gen_figure_trim_length_odd_witness :
    ((([(0 : ℚ), 0, 0, 0, 0] : List ℚ).length : ℤ) - ((4 : ℕ) : ℤ)) % 2 = 1 ∧
      0 < (([(0 : ℚ), 0, 0, 0, 0] : List ℚ).length : ℤ) - ((4 : ℕ) : ℤ) ∧
      (gen_figure_trim [(0 : ℚ), 0, 0, 0, 0] 4).length = 4 :=
  ⟨by decide, by decide,
    gen_figure_trim_length_odd [(0 : ℚ), 0, 0, 0, 0] 4 (by decide) (by decide)⟩

theorem length_recon_raw (hp : HParams) (label : ALabel) :
    (recon_raw hp label).length = label.expand.length := by
  unfold recon_raw atoms_to_lf0
  rw [List.length_map, List.length_range]

theorem length_expand (label : ALabel) : label.expand.length = label.len := by
  cases label
  · unfold ALabel.expand ALabel.len
    exact List.length_map _ _
  · rfl

theorem length_phrase_trunc (phraseFile : String → List ℚ) (hp : HParams)
    (id_name : String) (label : ALabel) :
    (phrase_trunc phraseFile hp id_name label).length ≤
      (recon_raw hp label).length := by
  unfold phrase_trunc
  rw [List.length_take]
  exact Nat.min_le_left _ _

theorem length_recon_one (phraseFile : String → List ℚ) (wc : WorldConsts)
    (hp : HParams) (id_name : String) (label : ALabel) :
    (recon_one phraseFile wc hp id_name label).length = label.len := by
  have h1 := length_phrase_trunc phraseFile hp id_name label
  unfold recon_one
  rw [List.length_map, List.length_append, List.length_zipWith,
    List.length_drop, Nat.min_eq_right h1, length_recon_raw, length_expand]
  rw [length_recon_raw, length_expand] at h1
  omega

theorem recon_one_getElem? (phraseFile : String → List ℚ) (wc : WorldConsts)
    (hp : HParams) (id_name : String) (label : ALabel) (i : ℕ)
    (hi : i < (recon_raw hp label).length) :
    (recon_one phraseFile wc hp id_name label)[i]? =
      some (silence_to_zero wc
        (if i < (phrase_trunc phraseFile hp id_name label).length then
          (recon_raw hp label).getD i 0 +
            (phrase_trunc phraseFile hp id_name label).getD i 0
        else (recon_raw hp label).getD i 0)) := by
  have hpc := length_phrase_trunc phraseFile hp id_name label
  unfold recon_one
  rw [List.getElem?_map]
  by_cases hcase : i < (phrase_trunc phraseFile hp id_name label).length
  · rw [List.getElem?_append_left
      (by rw [List.length_zipWith, Nat.min_eq_right hpc]; exact hcase)]
    rw [List.getElem?_zipWith, List.getElem?_eq_getElem hi,
      List.getElem?_eq_getElem hcase, if_pos hcase,
      List.getD_eq_getElem _ _ hi, List.getD_eq_getElem _ _ hcase]
    rfl
  · rw [List.getElem?_append_right
      (by rw [List.length_zipWith, Nat.min_eq_right hpc]; omega)]
    rw [List.length_zipWith, Nat.min_eq_right hpc, List.getElem?_drop]
    have hidx : (phrase_trunc phraseFile hp id_name label).length +
        (i - (phrase_trunc phraseFile hp id_name label).length) = i := by omega
    rw [hidx, List.getElem?_eq_getElem hi, if_neg hcase,
      List.getD_eq_getElem _ _ hi]
    rfl

theorem get_recon_getD_entry (phraseFile : String → List ℚ) (wc : WorldConsts)
    (hp : HParams) (so : List (String × ALabel)) (n : ℕ) (hn : n < so.length) :
    (get_recon_from_synth_output phraseFile wc hp so).getD n ("", []) =
      ((so.getD n ("", ALabel.dim3 [])).1,
        recon_one phraseFile wc hp (so.getD n ("", ALabel.dim3 [])).1
          (so.getD n ("", ALabel.dim3 [])).2) := by
  have hn2 : n < (get_recon_from_synth_output phraseFile wc hp so).length := by
    unfold get_recon_from_synth_output
    rw [List.length_map]
    exact hn
  rw [List.getD_eq_getElem _ _ hn2, List.getD_eq_getElem _ _ hn]
  unfold get_recon_from_synth_output
  rw [List.getElem_map]

/-- C3: for every entry `(id_name, label)` of `synth_output`,
`get_recon_from_synth_output` returns at the same position an entry for
`id_name` whose dense lf0 has exactly `len(label)` frames; a 2-dimensional
label is expanded along axis 1 first (see `ALabel.expand`) which does not
change its number of frames. -/
theorem get_recon_length_matches (phraseFile : String → List ℚ)
    (wc : WorldConsts) (hp : HParams) (so : List (String × ALabel)) (n : ℕ)
    (hn : n < so.length) :
    (get_recon_from_synth_output phraseFile wc hp so).length = so.length ∧
    ((get_recon_from_synth_output phraseFile wc hp so).getD n ("", [])).1 =
      (so.getD n ("", ALabel.dim3 [])).1 ∧
    ((get_recon_from_synth_output phraseFile wc hp so).getD n ("", [])).2.length
      = (so.getD n ("", ALabel.dim3 [])).2.len := by
  refine ⟨List.length_map _ _, ?_, ?_⟩
  · rw [get_recon_getD_entry phraseFile wc hp so n hn]
  · rw [get_recon_getD_entry phraseFile wc hp so n hn]
    exact length_recon_one _ _ _ _ _

theorem get_recon_length_matches_witness :
    (0 : ℕ) < ([("a", ALabel.dim2 [(1, 2)])] : List (String × ALabel)).length ∧
    ((get_recon_from_synth_output (fun _ => [1, 2]) ⟨3, -1⟩
        ⟨none, 1, 6, 5, 3/10, [1], "s", none, none⟩
        [("a", ALabel.dim2 [(1, 2)])]).length
      = ([("a", ALabel.dim2 [(1, 2)])] : List (String × ALabel)).length ∧
    ((get_recon_from_synth_output (fun _ => [1, 2]) ⟨3, -1⟩
        ⟨none, 1, 6, 5, 3/10, [1], "s", none, none⟩
        [("a", ALabel.dim2 [(1, 2)])]).getD 0 ("", [])).1 =
      (([("a", ALabel.dim2 [(1, 2)])] : List (String × ALabel)).getD 0
        ("", ALabel.dim3 [])).1 ∧
    ((get_recon_from_synth_output (fun _ => [1, 2]) ⟨3, -1⟩
        ⟨none, 1, 6, 5, 3/10, [1], "s", none, none⟩
        [("a", ALabel.dim2 [(1, 2)])]).getD 0 ("", [])).2.length
      = (([("a", ALabel.dim2 [(1, 2)])] : List (String × ALabel)).getD 0
        ("", ALabel.dim3 [])).2.len) :=
  ⟨by decide,
    get_recon_length_matches (fun _ => [1, 2]) ⟨3, -1⟩
      ⟨none, 1, 6, 5, 3/10, [1], "s", none, none⟩
      [("a", ALabel.dim2 [(1, 2)])] 0 (by decide)⟩

/-- C2: for every entry of `synth_output`, the dense lf0 that
`get_recon_from_synth_output` returns is obtained by adding the phrase curve
(truncated to the reconstruction length) element-wise to the first
`len(phrase_curve)` frames of the raw reconstruction and afterwards replacing
every frame whose value is at most `log(f0_silence_threshold)` by
`lf0_zero` (the map `silence_to_zero`). -/
theorem get_recon_phrase_then_silence (phraseFile : String → List ℚ)
    (wc : WorldConsts) (hp : HParams) (so : List (String × ALabel)) (n : ℕ)
    (hn : n < so.length) (i : ℕ)
    (hi : i < (recon_raw hp (so.getD n ("", ALabel.dim3 [])).2).length) :
    ((get_recon_from_synth_output phraseFile wc hp so).getD n ("", [])).2.getD
        i 0 =
      silence_to_zero wc
        (if i < (phrase_trunc phraseFile hp
            (so.getD n ("", ALabel.dim3 [])).1
            (so.getD n ("", ALabel.dim3 [])).2).length then
          (recon_raw hp (so.getD n ("", ALabel.dim3 [])).2).getD i 0 +
            (phrase_trunc phraseFile hp (so.getD n ("", ALabel.dim3 [])).1
              (so.getD n ("", ALabel.dim3 [])).2).getD i 0
        else (recon_raw hp (so.getD n ("", ALabel.dim3 [])).2).getD i 0) := by
  rw [get_recon_getD_entry phraseFile wc hp so n hn]
  rw [List.getD_eq_getElem?_getD,
    recon_one_getElem? phraseFile wc hp _ _ i hi]
  rfl

theorem map_fst_get_recon (phraseFile : String → List ℚ) (wc : WorldConsts)
    (hp : HParams) (so : List (String × ALabel)) :
    (get_recon_from_synth_output phraseFile wc hp so).map Prod.fst =
      so.map Prod.fst := by
  unfold get_recon_from_synth_output
  rw [List.map_map]
  rfl

theorem dictGet_dictSet_same (key : String) (v : β) (l : List (String × β)) :
    dictGet key (dictSet key v l) = (dictGet key l).map (fun _ => v) := by
  induction l with
  | nil => rfl
  | cons e rest ih =>
    by_cases h : e.1 = key
    · simp [dictSet, dictGet, h]
    · simpa [dictSet, dictGet, h] using ih

theorem dictGet_dictSet_other (key other : String) (v : β)
    (l : List (String × β)) (hne : other ≠ key) :
    dictGet other (dictSet key v l) = dictGet other l := by
  induction l with
  | nil => rfl
  | cons e rest ih =>
    by_cases h : e.1 = key
    · have h2 : ¬ key = other := fun hc => hne hc.symm
      simpa [dictSet, dictGet, h, h2] using ih
    · by_cases h3 : e.1 = other
      · simp [dictSet, dictGet, h, h3, hne]
      · simpa [dictSet, dictGet, h, h3] using ih

theorem dictGet_load_extracted (worldFile : String → List (List ℚ))
    (so : List (String × α)) (id_name : String)
    (hmem : id_name ∈ so.map Prod.fst) :
    dictGet id_name (load_extracted_audio_features worldFile so) =
      some (worldFile id_name) := by
  induction so with
  | nil => cases hmem
  | cons e rest ih =>
    by_cases h : e.1 = id_name
    · simp [load_extracted_audio_features, dictGet, h]
    · have hmem2 : id_name ∈ rest.map Prod.fst := by
        rcases List.mem_cons.mp hmem with h1 | h1
        · exact absurd h1.symm h
        · exact h1
      simpa [load_extracted_audio_features, dictGet, h] using ih hmem2

theorem stitch_start_le (n L : ℕ) : stitch_start n L ≤ n := by
  unfold stitch_start
  split_ifs
  · omega
  · exact pyIdx_le _ _

theorem stitch_start_le_stop (n L : ℕ) : stitch_start n L ≤ stitch_stop n L := by
  unfold stitch_stop
  split_ifs
  · exact stitch_start_le n L
  · omega

theorem stitch_stop_le (n L : ℕ) : stitch_stop n L ≤ n := by
  unfold stitch_stop
  split_ifs
  · exact le_refl n
  · have h1 := pyIdx_le (n - stitch_start n L)
      (-(((n : ℤ) - (L : ℤ)) - truncDiv2 ((n : ℤ) - (L : ℤ))))
    have h2 := stitch_start_le n L
    omega

theorem stitch_start_of_nonneg (n L : ℕ) (h : 0 ≤ (n : ℤ) - (L : ℤ)) :
    stitch_start n L = (truncDiv2 ((n : ℤ) - (L : ℤ))).toNat := by
  unfold stitch_start
  rw [truncDiv2_of_nonneg _ h]
  have ha0 : 0 ≤ ((n : ℤ) - (L : ℤ)) / 2 := Int.ediv_nonneg h (by norm_num)
  have ha1 : ((n : ℤ) - (L : ℤ)) / 2 ≤ (n : ℤ) - (L : ℤ) :=
    Int.ediv_le_self 2 h
  split_ifs with h0
  · omega
  · rw [pyIdx_of_nonneg _ _ ha0 (by omega)]

theorem stitch_all_cons (wc : WorldConsts) (sps : ℕ)
    (full_output : List (String × List (List ℚ))) (id_name : String)
    (lf0 : List ℚ) (rest : List (String × List ℚ)) :
    stitch_all wc sps full_output ((id_name, lf0) :: rest) =
      match dictGet id_name full_output with
      | none => Except.error "KeyError"
      | some full_sample =>
        match stitch_one wc sps full_sample lf0 with
        | Except.error msg => Except.error msg
        | Except.ok new_sample =>
          stitch_all wc sps (dictSet id_name new_sample full_output) rest := by
  rfl

theorem stitch_all_ok_other (wc : WorldConsts) (sps : ℕ)
    (recon : List (String × List ℚ)) :
    ∀ (full_output final : List (String × List (List ℚ))) (id_name : String),
    stitch_all wc sps full_output recon = Except.ok final →
    id_name ∉ recon.map Prod.fst →
    dictGet id_name final = dictGet id_name full_output := by
  induction recon with
  | nil =>
    intro full_output final id_name h _
    rw [← Except.ok.inj h]
  | cons e rest ih =>
    obtain ⟨k, lf0⟩ := e
    intro full_output final id_name h hnotin
    rw [stitch_all_cons] at h
    have hk : id_name ≠ k := by
      intro hc
      exact hnotin (by rw [hc]; exact List.mem_cons_self _ _)
    have hrest : id_name ∉ rest.map Prod.fst := by
      intro hc
      exact hnotin (List.mem_cons_of_mem _ hc)
    cases hg : dictGet k full_output with
    | none => rw [hg] at h; dsimp only at h; cases h
    | some fs =>
      rw [hg] at h
      dsimp only at h
      cases hs : stitch_one wc sps fs lf0 with
      | error msg => rw [hs] at h; dsimp only at h; cases h
      | ok ns =>
        rw [hs] at h
        dsimp only at h
        rw [ih _ _ _ h hrest]
        exact dictGet_dictSet_other k id_name ns full_output hk

theorem stitch_all_ok_entry (wc : WorldConsts) (sps : ℕ)
    (recon : List (String × List ℚ)) :
    ∀ (full_output final : List (String × List (List ℚ))) (id_name : String)
      (lf0 : List ℚ),
    stitch_all wc sps full_output recon = Except.ok final →
    (recon.map Prod.fst).Nodup →
    (id_name, lf0) ∈ recon →
    ∃ fs ns, dictGet id_name full_output = some fs ∧
      stitch_one wc sps fs lf0 = Except.ok ns ∧
      dictGet id_name final = some ns := by
  induction recon with
  | nil => intro _ _ _ _ _ _ hmem; cases hmem
  | cons e rest ih =>
    obtain ⟨k, klf0⟩ := e
    intro full_output final id_name lf0 h hnd hmem
    rw [stitch_all_cons] at h
    have hnd2 : k ∉ rest.map Prod.fst ∧ (rest.map Prod.fst).Nodup := by
      rw [List.map_cons] at hnd
      exact List.nodup_cons.mp hnd
    cases hg : dictGet k full_output with
    | none => rw [hg] at h; dsimp only at h; cases h
    | some fs0 =>
      rw [hg] at h
      dsimp only at h
      cases hs : stitch_one wc sps fs0 klf0 with
      | error msg => rw [hs] at h; dsimp only at h; cases h
      | ok ns0 =>
        rw [hs] at h
        dsimp only at h
        rcases List.mem_cons.mp hmem with heq | hmem2
        · injection heq with hk1 hk2
          subst hk1
          subst hk2
          refine ⟨fs0, ns0, hg, hs, ?_⟩
          rw [stitch_all_ok_other wc sps rest _ _ _ h hnd2.1,
            dictGet_dictSet_same, hg]
          rfl
        · have hk : id_name ≠ k := by
            intro hc
            subst hc
            exact hnd2.1 (List.mem_map.mpr ⟨(id_name, lf0), hmem2, rfl⟩)
          obtain ⟨fs, ns, hgf, hso, hfin⟩ := ih _ _ _ _ h hnd2.2 hmem2
          rw [dictGet_dictSet_other k id_name ns0 full_output hk] at hgf
          exact ⟨fs, ns, hgf, hso, hfin⟩

theorem stitch_one_ok_spec (wc : WorldConsts) (sps : ℕ)
    (fs : List (List ℚ)) (lf0 : List ℚ) (ns : List (List ℚ))
    (hok : stitch_one wc sps fs lf0 = Except.ok ns) :
    ns.length = fs.length ∧
    stitch_start fs.length lf0.length + lf0.length ≤ fs.length ∧
    (∀ i, i < lf0.length →
      (ns.getD (stitch_start fs.length lf0.length + i) []).getD sps 0 =
        lf0.getD i 0 ∧
      (ns.getD (stitch_start fs.length lf0.length + i) []).getD (sps + 1) 0 =
        vuv_val wc (lf0.getD i 0)) ∧
    (∀ j, j < stitch_start fs.length lf0.length ∨
        stitch_start fs.length lf0.length + lf0.length ≤ j →
      ns.getD j [] = fs.getD j []) := by
  unfold stitch_one at hok
  split_ifs at hok with hcond
  · obtain ⟨hwin, hall⟩ := hcond
    simp only [List.all_eq_true, decide_eq_true_eq] at hall
    have hns := (Except.ok.inj hok).symm
    have hse := stitch_start_le_stop fs.length lf0.length
    have hen := stitch_stop_le fs.length lf0.length
    have hlen : ns.length = fs.length := by
      rw [hns, List.length_map, List.enum_length]
    have hstop : stitch_stop fs.length lf0.length =
        stitch_start fs.length lf0.length + lf0.length := by omega
    refine ⟨hlen, by omega, ?_, ?_⟩
    · intro i hi
      have hj : stitch_start fs.length lf0.length + i < fs.length := by omega
      have hj2 : stitch_start fs.length lf0.length + i < ns.length := by omega
      have hrow : ns.getD (stitch_start fs.length lf0.length + i) [] =
          stitch_row wc sps (lf0.getD i 0)
            (fs.getD (stitch_start fs.length lf0.length + i) []) := by
        rw [List.getD_eq_getElem _ _ hj2, List.getD_eq_getElem _ _ hj]
        subst hns
        rw [List.getElem_map, List.getElem_enum]
        rw [if_pos ⟨Nat.le_add_right _ _, by omega⟩]
        have hidx : stitch_start fs.length lf0.length + i -
            stitch_start fs.length lf0.length = i := by omega
        rw [hidx]
      have hw : sps + 1 <
          (fs.getD (stitch_start fs.length lf0.length + i) []).length := by
        rw [List.getD_eq_getElem _ _ hj]
        exact hall _ (List.getElem_mem _)
      rw [hrow]
      unfold stitch_row
      constructor
      · rw [List.getD_eq_getElem _ _
          (by rw [List.length_set, List.length_set]; omega)]
        rw [List.getElem_set_ne (by omega), List.getElem_set_self]
      · rw [List.getD_eq_getElem _ _
          (by rw [List.length_set, List.length_set]; omega)]
        rw [List.getElem_set_self]
    · intro j hj
      by_cases hjn : j < fs.length
      · rw [List.getD_eq_getElem _ _ (by omega), List.getD_eq_getElem _ _ hjn]
        subst hns
        rw [List.getElem_map, List.getElem_enum]
        rw [if_neg (by omega)]
      · rw [List.getD_eq_getElem?_getD, List.getD_eq_getElem?_getD,
          List.getElem?_eq_none (by omega), List.getElem?_eq_none (by omega)]

theorem get_recon_phrase_then_silence_witness :
    (0 : ℕ) < ([("a", ALabel.dim2 [(1, 2)])] : List (String × ALabel)).length ∧
    (0 : ℕ) < (recon_raw ⟨none, 1, 6, 5, 3/10, [1], "s", none, none⟩
      (([("a", ALabel.dim2 [(1, 2)])] : List (String × ALabel)).getD 0
        ("", ALabel.dim3 [])).2).length ∧
    ((get_recon_from_synth_output (fun _ => [5, 2]) ⟨3, -1⟩
        ⟨none, 1, 6, 5, 3/10, [1], "s", none, none⟩
        [("a", ALabel.dim2 [(1, 2)])]).getD 0 ("", [])).2.getD 0 0 =
      silence_to_zero ⟨3, -1⟩
        (if 0 < (phrase_trunc (fun _ => [5, 2])
            ⟨none, 1, 6, 5, 3/10, [1], "s", none, none⟩
            (([("a", ALabel.dim2 [(1, 2)])] : List (String × ALabel)).getD 0
              ("", ALabel.dim3 [])).1
            (([("a", ALabel.dim2 [(1, 2)])] : List (String × ALabel)).getD 0
              ("", ALabel.dim3 [])).2).length then
          (recon_raw ⟨none, 1, 6, 5, 3/10, [1], "s", none, none⟩
              (([("a", ALabel.dim2 [(1, 2)])] : List (String × ALabel)).getD 0
                ("", ALabel.dim3 [])).2).getD 0 0 +
            (phrase_trunc (fun _ => [5, 2])
              ⟨none, 1, 6, 5, 3/10, [1], "s", none, none⟩
              (([("a", ALabel.dim2 [(1, 2)])] : List (String × ALabel)).getD 0
                ("", ALabel.dim3 [])).1
              (([("a", ALabel.dim2 [(1, 2)])] : List (String × ALabel)).getD 0
                ("", ALabel.dim3 [])).2).getD 0 0
        else (recon_raw ⟨none, 1, 6, 5, 3/10, [1], "s", none, none⟩
            (([("a", ALabel.dim2 [(1, 2)])] : List (String × ALabel)).getD 0
              ("", ALabel.dim3 [])).2).getD 0 0) :=
  ⟨by decide, by decide,
    get_recon_phrase_then_silence (fun _ => [5, 2]) ⟨3, -1⟩
      ⟨none, 1, 6, 5, 3/10, [1], "s", none, none⟩
      [("a", ALabel.dim2 [(1, 2)])] 0 (by decide) 0 (by decide)⟩

/-- C1 (amended): for every id of `synth_output` (with
`synth_acoustic_model_path = None`, distinct ids and
`len_diff = len(full_sample) - len(lf0) ≥ 0`), the matrix that
`run_atom_synth` returns for that id keeps its loaded number of frames; the
reconstructed lf0 occupies rows `int(len_diff/2) .. int(len_diff/2)+len(lf0)`
of column `num_coded_sps` and the derived voiced/unvoiced mask the same rows
of column `num_coded_sps + 1`, while the `len_diff` rows outside that window
keep their loaded values (the trims produce numpy views, and the dict entry
is never rebound to the trimmed view).  The whole column equals the
reconstructed lf0 only when `len_diff = 0`. -/
theorem run_atom_synth_stitches_window (worldFile : String → List (List ℚ))
    (phraseFile : String → List ℚ) (wc : WorldConsts) (hp : HParams)
    (file_id_list : List String) (so : List (String × ALabel))
    (final : List (String × List (List ℚ)))
    (hpath : hp.synth_acoustic_model_path = none)
    (hnd : (so.map Prod.fst).Nodup)
    (hok : run_atom_synth worldFile phraseFile wc hp file_id_list so =
      Except.ok (some final))
    (id_name : String) (label : ALabel) (hmem : (id_name, label) ∈ so)
    (hd : 0 ≤ ((worldFile id_name).length : ℤ) -
      ((recon_one phraseFile wc hp id_name label).length : ℤ)) :
    ∃ fm, dictGet id_name final = some fm ∧
      fm.length = (worldFile id_name).length ∧
      (∀ i, i < (recon_one phraseFile wc hp id_name label).length →
        (fm.getD ((truncDiv2 (((worldFile id_name).length : ℤ) -
              ((recon_one phraseFile wc hp id_name label).length : ℤ))).toNat +
            i) []).getD hp.num_coded_sps 0 =
          (recon_one phraseFile wc hp id_name label).getD i 0 ∧
        (fm.getD ((truncDiv2 (((worldFile id_name).length : ℤ) -
              ((recon_one phraseFile wc hp id_name label).length : ℤ))).toNat +
            i) []).getD (hp.num_coded_sps + 1) 0 =
          vuv_val wc ((recon_one phraseFile wc hp id_name label).getD i 0)) ∧
      (∀ j, j < (truncDiv2 (((worldFile id_name).length : ℤ) -
            ((recon_one phraseFile wc hp id_name label).length : ℤ))).toNat ∨
          (truncDiv2 (((worldFile id_name).length : ℤ) -
              ((recon_one phraseFile wc hp id_name label).length : ℤ))).toNat +
            (recon_one phraseFile wc hp id_name label).length ≤ j →
        fm.getD j [] = (worldFile id_name).getD j []) := by
  unfold run_atom_synth at hok
  rw [hpath] at hok
  dsimp only at hok
  cases hsa : stitch_all wc hp.num_coded_sps
      (load_extracted_audio_features worldFile so)
      (get_recon_from_synth_output phraseFile wc hp so) with
  | error msg => rw [hsa] at hok; simp only [Except.map] at hok; cases hok
  | ok m =>
    rw [hsa] at hok
    simp only [Except.map, Except.ok.injEq, Option.some.injEq] at hok
    subst hok
    have hmemr : (id_name, recon_one phraseFile wc hp id_name label) ∈
        get_recon_from_synth_output phraseFile wc hp so :=
      List.mem_map.mpr ⟨(id_name, label), hmem, rfl⟩
    have hndr : ((get_recon_from_synth_output phraseFile wc hp so).map
        Prod.fst).Nodup := by
      rw [map_fst_get_recon]
      exact hnd
    obtain ⟨fs, ns, hgf, hso, hfin⟩ :=
      stitch_all_ok_entry wc hp.num_coded_sps
        (get_recon_from_synth_output phraseFile wc hp so)
        (load_extracted_audio_features worldFile so) m id_name
        (recon_one phraseFile wc hp id_name label) hsa hndr hmemr
    rw [dictGet_load_extracted worldFile so id_name
      (List.mem_map.mpr ⟨(id_name, label), hmem, rfl⟩)] at hgf
    injection hgf with hfs
    subst hfs
    obtain ⟨hlen, hbound, hvals, hout⟩ :=
      stitch_one_ok_spec wc hp.num_coded_sps (worldFile id_name)
        (recon_one phraseFile wc hp id_name label) ns hso
    refine ⟨ns, hfin, hlen, ?_, ?_⟩
    · intro i hi
      rw [← stitch_start_of_nonneg _ _ hd]
      exact hvals i hi
    · intro j hj
      rw [← stitch_start_of_nonneg _ _ hd] at hj
      exact hout j hj

theorem run_atom_synth_stitches_window_witness :
    ∃ fm, dictGet "a" [("a", sampleStitched)] = some fm ∧
      fm.length = (sampleWorld "a").length ∧
      (∀ i, i < (recon_one samplePhrase sampleWC sampleHP "a"
          sampleLabel).length →
        (fm.getD ((truncDiv2 (((sampleWorld "a").length : ℤ) -
              ((recon_one samplePhrase sampleWC sampleHP "a"
                sampleLabel).length : ℤ))).toNat + i) []).getD
            sampleHP.num_coded_sps 0 =
          (recon_one samplePhrase sampleWC sampleHP "a" sampleLabel).getD i 0 ∧
        (fm.getD ((truncDiv2 (((sampleWorld "a").length : ℤ) -
              ((recon_one samplePhrase sampleWC sampleHP "a"
                sampleLabel).length : ℤ))).toNat + i) []).getD
            (sampleHP.num_coded_sps + 1) 0 =
          vuv_val sampleWC
            ((recon_one samplePhrase sampleWC sampleHP "a"
              sampleLabel).getD i 0)) ∧
      (∀ j, j < (truncDiv2 (((sampleWorld "a").length : ℤ) -
            ((recon_one samplePhrase sampleWC sampleHP "a"
              sampleLabel).length : ℤ))).toNat ∨
          (truncDiv2 (((sampleWorld "a").length : ℤ) -
              ((recon_one samplePhrase sampleWC sampleHP "a"
                sampleLabel).length : ℤ))).toNat +
            (recon_one samplePhrase sampleWC sampleHP "a"
              sampleLabel).length ≤ j →
        fm.getD j [] = (sampleWorld "a").getD j []) :=
  run_atom_synth_stitches_window sampleWorld samplePhrase sampleWC sampleHP
    ["a"] sampleSynthOutput [("a", sampleStitched)] rfl (by decide)
    (by decide) "a" sampleLabel (by decide) (by decide)

/-- C1 counterexample: with a full sample of 3 frames and a reconstructed lf0
of 1 frame (`len_diff = 2 > 0`), `run_atom_synth` succeeds but the matrix it
returns for the id still has 3 frames, so its column `num_coded_sps` (= 1) is
`[10, 1, 30]`, not the reconstructed lf0 `[1]`: the claim's "column equal to
the reconstructed lf0" fails whenever `len_diff > 0`. -/
theorem run_atom_synth_full_column_counterexample :
    run_atom_synth sampleWorld samplePhrase sampleWC sampleHP ["a"]
        sampleSynthOutput = Except.ok (some [("a", sampleStitched)]) ∧
      ¬ matCol sampleStitched sampleHP.num_coded_sps =
        recon_one samplePhrase sampleWC sampleHP "a" sampleLabel := by
  constructor
  · decide
  · decide

/-- C10: every voiced/unvoiced value that `run_atom_synth` writes into column
`num_coded_sps + 1` of a full sample is 0 or 1, and it is 0 exactly when the
reconstructed lf0 value written at the same frame is at most
`log(f0_silence_threshold)`. -/
theorem run_atom_synth_vuv_values (worldFile : String → List (List ℚ))
    (phraseFile : String → List ℚ) (wc : WorldConsts) (hp : HParams)
    (file_id_list : List String) (so : List (String × ALabel))
    (final : List (String × List (List ℚ)))
    (hpath : hp.synth_acoustic_model_path = none)
    (hnd : (so.map Prod.fst).Nodup)
    (hok : run_atom_synth worldFile phraseFile wc hp file_id_list so =
      Except.ok (some final))
    (id_name : String) (label : ALabel) (hmem : (id_name, label) ∈ so) :
    ∃ fm, dictGet id_name final = some fm ∧
      ∀ i, i < (recon_one phraseFile wc hp id_name label).length →
        ((fm.getD (stitch_start (worldFile id_name).length
              (recon_one phraseFile wc hp id_name label).length + i) []).getD
            (hp.num_coded_sps + 1) 0 = 0 ∨
          (fm.getD (stitch_start (worldFile id_name).length
              (recon_one phraseFile wc hp id_name label).length + i) []).getD
            (hp.num_coded_sps + 1) 0 = 1) ∧
        ((fm.getD (stitch_start (worldFile id_name).length
              (recon_one phraseFile wc hp id_name label).length + i) []).getD
            (hp.num_coded_sps + 1) 0 = 0 ↔
          (recon_one phraseFile wc hp id_name label).getD i 0 ≤
            wc.log_f0_silence_threshold) := by
  unfold run_atom_synth at hok
  rw [hpath] at hok
  dsimp only at hok
  cases hsa : stitch_all wc hp.num_coded_sps
      (load_extracted_audio_features worldFile so)
      (get_recon_from_synth_output phraseFile wc hp so) with
  | error msg => rw [hsa] at hok; simp only [Except.map] at hok; cases hok
  | ok m =>
    rw [hsa] at hok
    simp only [Except.map, Except.ok.injEq, Option.some.injEq] at hok
    subst hok
    have hmemr : (id_name, recon_one phraseFile wc hp id_name label) ∈
        get_recon_from_synth_output phraseFile wc hp so :=
      List.mem_map.mpr ⟨(id_name, label), hmem, rfl⟩
    have hndr : ((get_recon_from_synth_output phraseFile wc hp so).map
        Prod.fst).Nodup := by
      rw [map_fst_get_recon]
      exact hnd
    obtain ⟨fs, ns, hgf, hso, hfin⟩ :=
      stitch_all_ok_entry wc hp.num_coded_sps
        (get_recon_from_synth_output phraseFile wc hp so)
        (load_extracted_audio_features worldFile so) m id_name
        (recon_one phraseFile wc hp id_name label) hsa hndr hmemr
    rw [dictGet_load_extracted worldFile so id_name
      (List.mem_map.mpr ⟨(id_name, label), hmem, rfl⟩)] at hgf
    injection hgf with hfs
    subst hfs
    obtain ⟨hlen, hbound, hvals, hout⟩ :=
      stitch_one_ok_spec wc hp.num_coded_sps (worldFile id_name)
        (recon_one phraseFile wc hp id_name label) ns hso
    refine ⟨ns, hfin, ?_⟩
    intro i hi
    rw [(hvals i hi).2]
    unfold vuv_val
    by_cases hv : (recon_one phraseFile wc hp id_name label).getD i 0 ≤
        wc.log_f0_silence_threshold
    · rw [if_pos hv]
      exact ⟨Or.inl rfl, ⟨fun _ => hv, fun _ => rfl⟩⟩
    · rw [if_neg hv]
      refine ⟨Or.inr rfl, ?_⟩
      constructor
      · intro hc
        exact absurd hc (by norm_num)
      · intro hc
        exact absurd hc hv

theorem run_atom_synth_vuv_values_witness :
    ∃ fm, dictGet "a" [("a", sampleStitched)] = some fm ∧
      ∀ i, i < (recon_one samplePhrase sampleWC sampleHP "a"
          sampleLabel).length →
        ((fm.getD (stitch_start (sampleWorld "a").length
              (recon_one samplePhrase sampleWC sampleHP "a"
                sampleLabel).length + i) []).getD
            (sampleHP.num_coded_sps + 1) 0 = 0 ∨
          (fm.getD (stitch_start (sampleWorld "a").length
              (recon_one samplePhrase sampleWC sampleHP "a"
                sampleLabel).length + i) []).getD
            (sampleHP.num_coded_sps + 1) 0 = 1) ∧
        ((fm.getD (stitch_start (sampleWorld "a").length
              (recon_one samplePhrase sampleWC sampleHP "a"
                sampleLabel).length + i) []).getD
            (sampleHP.num_coded_sps + 1) 0 = 0 ↔
          (recon_one samplePhrase sampleWC sampleHP "a" sampleLabel).getD i 0 ≤
            sampleWC.log_f0_silence_threshold) :=
  run_atom_synth_vuv_values sampleWorld samplePhrase sampleWC sampleHP ["a"]
    sampleSynthOutput [("a", sampleStitched)] rfl (by decide) (by decide)
    "a" sampleLabel (by decide)

/-- C6: `synthesize` builds the full acoustic output with `run_atom_synth`
and passes exactly that result, under the active `synth_file_suffix`, to
`Synthesiser.run_world_synth`. -/
theorem synthesize_passes_full_output (worldFile : String → List (List ℚ))
    (phraseFile : String → List ℚ) (wc : WorldConsts) (hp : HParams)
    (id_list : List String) (so : List (String × ALabel))
    (c : WorldSynthCall)
    (h : synthesize worldFile phraseFile wc hp id_list so = Except.ok c) :
    run_atom_synth worldFile phraseFile wc hp id_list so =
      Except.ok c.features ∧
    c.suffix = hp.synth_file_suffix := by
  unfold synthesize at h
  cases hr : run_atom_synth worldFile phraseFile wc hp id_list so with
  | error msg => rw [hr] at h; simp only [Except.map] at h; cases h
  | ok fo =>
    rw [hr] at h
    simp only [Except.map, Except.ok.injEq] at h
    subst h
    exact ⟨rfl, rfl⟩

theorem synthesize_passes_full_output_witness :
    run_atom_synth sampleWorld samplePhrase sampleWC sampleHP ["a"]
        sampleSynthOutput =
      Except.ok ((⟨some [("a", sampleStitched)], "s"⟩ :
        WorldSynthCall).features) ∧
    (⟨some [("a", sampleStitched)], "s"⟩ : WorldSynthCall).suffix =
      sampleHP.synth_file_suffix :=
  synthesize_passes_full_output sampleWorld samplePhrase sampleWC sampleHP
    ["a"] sampleSynthOutput ⟨some [("a", sampleStitched)], "s"⟩ (by decide)

/-- C7 (code-bug exhibit): with `synth_acoustic_model_path` set and a
nonempty `synth_output`, `run_atom_synth` raises a TypeError instead of
obtaining MGC/BAP features from the acoustic model, because
`generate_audio_features` has no `return` statement and hands back `None`. -/
theorem run_atom_synth_acoustic_model_crash :
    run_atom_synth sampleWorld samplePhrase sampleWC sampleHPAM ["a"]
      sampleSynthOutput = Except.error "TypeError" := by decide

/-- C8: two independent statements — for every input on which
`synth_ref_wcad` returns, the `synth_file_suffix` of the returned hparams
equals its value before the call, and likewise, for every (separately
quantified) input on which `synth_phrase` returns: the `"_wcad_ref"`
(resp. `"_phrase"`) identifier appended internally is restored before
returning. -/
theorem synth_file_suffix_restored :
    (∀ (worldFile : String → List (List ℚ)) (phraseFile : String → List ℚ)
        (atomFile : String → List (List (ℚ × ℚ))) (wc : WorldConsts)
        (hp : HParams) (file_id_list : List String)
        (r1 : HParams × WorldSynthCall),
      synth_ref_wcad worldFile phraseFile atomFile wc hp file_id_list =
        Except.ok r1 →
      r1.1.synth_file_suffix = hp.synth_file_suffix) ∧
    (∀ (worldFile : String → List (List ℚ)) (phraseFile : String → List ℚ)
        (hp : HParams) (file_id_list : List String)
        (r2 : HParams × VocoderSynthCall),
      synth_phrase worldFile phraseFile hp file_id_list = Except.ok r2 →
      r2.1.synth_file_suffix = hp.synth_file_suffix) := by
  constructor
  · intro worldFile phraseFile atomFile wc hp file_id_list r1 h1
    unfold synth_ref_wcad at h1
    cases hr : run_atom_synth worldFile phraseFile wc hp file_id_list
        (file_id_list.map
          (fun id_name => (id_name, ALabel.dim3 (atomFile id_name)))) with
    | error msg => rw [hr] at h1; dsimp only at h1; cases h1
    | ok fo =>
      rw [hr] at h1
      dsimp only at h1
      have hinj := Except.ok.inj h1
      subst hinj
      rfl
  · intro worldFile phraseFile hp file_id_list r2 h2
    unfold synth_phrase at h2
    cases ho : override_all phraseFile
        (load_extracted_audio_features worldFile
          (file_id_list.map
            (fun id_name => (id_name, (none : Option Unit))))) with
    | error msg => rw [ho] at h2; dsimp only at h2; cases h2
    | ok fo =>
      rw [ho] at h2
      dsimp only at h2
      have hinj := Except.ok.inj h2
      subst hinj
      rfl

theorem synth_file_suffix_restored_witness :
    (sampleHP0,
      (⟨some [("a", [[10, 10], [20, 20]])], "s_wcad_ref"⟩ :
        WorldSynthCall)).1.synth_file_suffix = sampleHP0.synth_file_suffix ∧
    (sampleHP,
      (⟨[("a", ([] : List (List ℚ)))], "s_phrase"⟩ :
        VocoderSynthCall)).1.synth_file_suffix = sampleHP.synth_file_suffix :=
  ⟨synth_file_suffix_restored.1 sampleWorld2 samplePhrase emptyAtomFile
      sampleWC sampleHP0 ["a"]
      (sampleHP0, ⟨some [("a", [[10, 10], [20, 20]])], "s_wcad_ref"⟩)
      (by decide),
    synth_file_suffix_restored.2 emptyWorld samplePhrase sampleHP ["a"]
      (sampleHP, ⟨[("a", ([] : List (List ℚ)))], "s_phrase"⟩)
      (by decide)⟩

/-- C9: in the constructor, with
`p = min(0.99, 0.02 / len(thetas))`: when the attribute `weight_zero` is
absent or `None`, `weight_non_zero` is set to `1 / p` and `weight_zero` to
`1 / (1 - p)`; when `weight_zero` holds a value, both weights are left
unchanged. -/
theorem init_weight_hparams_cases (thetas : List ℚ) (hp : HParams)
    (hne : thetas ≠ []) :
    ((hp.weight_zero = none ∨ hp.weight_zero = some none) →
      (init_weight_hparams thetas hp).weight_non_zero =
        some (some (1 / min (99 / 100 : ℚ)
          ((1 / 50) / (thetas.length : ℚ)))) ∧
      (init_weight_hparams thetas hp).weight_zero =
        some (some (1 / (1 - min (99 / 100 : ℚ)
          ((1 / 50) / (thetas.length : ℚ)))))) ∧
    ((∃ v, hp.weight_zero = some (some v)) →
      (init_weight_hparams thetas hp).weight_zero = hp.weight_zero ∧
      (init_weight_hparams thetas hp).weight_non_zero =
        hp.weight_non_zero) := by
  constructor
  · rintro (hw | hw) <;> simp [init_weight_hparams, hw]
  · rintro ⟨v, hw⟩
    simp [init_weight_hparams, hw]

theorem init_weight_hparams_cases_witness :
    ((init_weight_hparams [(1 : ℚ), 2] sampleHP).weight_non_zero =
        some (some (1 / min (99 / 100 : ℚ)
          ((1 / 50) / (([(1 : ℚ), 2] : List ℚ).length : ℚ)))) ∧
      (init_weight_hparams [(1 : ℚ), 2] sampleHP).weight_zero =
        some (some (1 / (1 - min (99 / 100 : ℚ)
          ((1 / 50) / (([(1 : ℚ), 2] : List ℚ).length : ℚ)))))) ∧
    ((init_weight_hparams [(1 : ℚ), 2]
        (⟨none, 1, 6, 5, 3 / 10, [1], "s", some (some 5),
          some (some 7)⟩ : HParams)).weight_zero =
      (⟨none, 1, 6, 5, 3 / 10, [1], "s", some (some 5),
        some (some 7)⟩ : HParams).weight_zero ∧
    (init_weight_hparams [(1 : ℚ), 2]
        (⟨none, 1, 6, 5, 3 / 10, [1], "s", some (some 5),
          some (some 7)⟩ : HParams)).weight_non_zero =
      (⟨none, 1, 6, 5, 3 / 10, [1], "s", some (some 5),
        some (some 7)⟩ : HParams).weight_non_zero) :=
  ⟨(init_weight_hparams_cases [(1 : ℚ), 2] sampleHP (by decide)).1
      (Or.inl rfl),
    (init_weight_hparams_cases [(1 : ℚ), 2]
      ⟨none, 1, 6, 5, 3 / 10, [1], "s", some (some 5), some (some 7)⟩
      (by decide)).2 ⟨5, rfl⟩⟩

end IdiapTTS
